import Mathlib

/-!
Verification development for the cross-layer video transmission simulator.

The program (`app.py`) exposes one algorithmic function,
`simulate_cross_layer(bw, snr_db, pkt_size, bitrate, total_frames)`, which
iterates over `total_frames` discrete frames, carrying a single state variable
`queue_length`, and per frame draws two random numbers
(`random.uniform(0.8, 1.2)` and `random.random()`), computes channel capacity,
an adaptive bitrate, a congestion window, throughput, delay, energy and an
approximate PSNR, and appends one record per frame.

The embedding below models the float computation over `ℝ` and the ambient
random source as an explicit pair of per-frame draw sequences.

Division on `ℝ` is total while two of the program's divisions can abort a
Python run: at `pkt_size = 0` line 40 applies `int()` to an infinite quotient
(OverflowError), and at `bitrate = 0` line 59 divides the plain float `0.0` by
`0.0` (ZeroDivisionError). The model is therefore claimed faithful only where
`pkt_size > 0` and `bitrate > 0`; every theorem below that reaches outside the
§4.1 preconditions carries these two hypotheses.
-/

namespace CrossLayer

/-- The five configuration scalars passed to `simulate_cross_layer`
(`bw` in MHz, `snr_db` in dB, `pkt_size` in KB, `bitrate` in Mbps,
`total_frames` the number of frames). -/
structure Config where
  bw : ℝ
  snr_db : ℝ
  pkt_size : ℝ
  bitrate : ℝ
  total_frames : ℕ

/-- The per-frame random draws consumed by the loop body: `mult t` is the value
of `random.uniform(0.8, 1.2)` at frame `t` (line 36), and `u t` is the value of
`random.random()` at frame `t` (line 48). -/
structure Draws where
  mult : ℕ → ℝ
  u : ℕ → ℝ

/-- The ranges the Python random primitives guarantee for the draws:
`random.uniform(0.8, 1.2)` lies in [0.8, 1.2] and `random.random()` in [0, 1). -/
def Draws.Valid (d : Draws) : Prop :=
  (∀ t, 0.8 ≤ d.mult t ∧ d.mult t ≤ 1.2) ∧ (∀ t, 0 ≤ d.u t ∧ d.u t < 1)

/-- The preconditions of spec §4.1: bandwidth, packet size, target bitrate and
frame count all positive. -/
def Config.Valid (cfg : Config) : Prop :=
  0 < cfg.bw ∧ 0 < cfg.pkt_size ∧ 0 < cfg.bitrate ∧ 0 < cfg.total_frames

/-- One output record per frame (the six series appended at lines 63-68:
time, bitrate in Mbps, psnr in dB, delay in s, energy in J,
throughput in Mbps). -/
structure FrameRecord where
  time : ℕ
  bitrate : ℝ
  psnr : ℝ
  delay : ℝ
  energy : ℝ
  throughput : ℝ

/-- Line 27: `snr_lin = 10 ** (snr_db / 10)`. -/
noncomputable def snr_lin (snr_db : ℝ) : ℝ := (10 : ℝ) ^ (snr_db / 10)

/-- Line 28: `capacity = bw * 1e6 * np.log2(1 + snr_lin)` (Shannon capacity). -/
noncomputable def capacity (bw snr_db : ℝ) : ℝ :=
  bw * 1e6 * Real.logb 2 (1 + snr_lin snr_db)

/-- Python `int()` applied to a finite float truncates toward zero. (On an
infinite or NaN argument Python raises OverflowError/ValueError instead; this
total function models only the finite case, which at line 40 is exactly
`pkt_size > 0`.) -/
noncomputable def pyInt (x : ℝ) : ℤ := if 0 ≤ x then ⌊x⌋ else ⌈x⌉

/-- Line 36: `capacity_t = capacity * random.uniform(0.8, 1.2)`. -/
noncomputable def capacity_t (cfg : Config) (d : Draws) (t : ℕ) : ℝ :=
  capacity cfg.bw cfg.snr_db * d.mult t

/-- Line 37: `adaptive_bitrate = min(bitrate * 1e6, capacity_t * 0.9)`. -/
noncomputable def adaptive_bitrate (cfg : Config) (d : Draws) (t : ℕ) : ℝ :=
  min (cfg.bitrate * 1e6) (capacity_t cfg d t * 0.9)

/-- Line 40: `cwnd = min(10, max(1, int(capacity_t / (pkt_size * 1024 * 8))))`. -/
noncomputable def cwnd (cfg : Config) (d : Draws) (t : ℕ) : ℤ :=
  min 10 (max 1 (pyInt (capacity_t cfg d t / (cfg.pkt_size * 1024 * 8))))

/-- Line 48: `link_eff = 1.0 if random.random() > 0.1 else 0.9`. -/
noncomputable def link_eff (d : Draws) (t : ℕ) : ℝ :=
  if d.u t > 0.1 then 1 else 0.9

/-- Lines 43-49: `throughput = adaptive_bitrate * routing_eff` with
`routing_eff = 0.95`, then `throughput *= link_eff`. -/
noncomputable def throughput (cfg : Config) (d : Draws) (t : ℕ) : ℝ :=
  adaptive_bitrate cfg d t * 0.95 * link_eff d t

/-- Lines 31 and 52: `queue_length` starts at 0 and each frame executes
`queue_length += max(0, adaptive_bitrate - capacity_t)`; `queue_length cfg d t`
is the value of the accumulator after the first `t` frames (so after frame
`t - 1`'s update). -/
noncomputable def queue_length (cfg : Config) (d : Draws) : ℕ → ℝ
  | 0 => 0
  | t + 1 =>
    queue_length cfg d t + max 0 (adaptive_bitrate cfg d t - capacity_t cfg d t)

/-- Line 53: `delay = queue_length / (capacity_t + 1e-9)`, using the queue value
after frame `t`'s update. -/
noncomputable def delay (cfg : Config) (d : Draws) (t : ℕ) : ℝ :=
  queue_length cfg d (t + 1) / (capacity_t cfg d t + 1e-9)

/-- Line 56: `energy = power_tx * (pkt_size * 8 / capacity_t)` with
`power_tx = 0.1` (line 32). -/
noncomputable def energy (cfg : Config) (d : Draws) (t : ℕ) : ℝ :=
  0.1 * (cfg.pkt_size * 8 / capacity_t cfg d t)

/-- Line 59: `mse = max(1, 255**2 / (throughput / (bitrate * 1e6) + 0.1))`.
(The inner division is between plain Python floats and raises
ZeroDivisionError when `bitrate = 0`; the total `ℝ` division models only
`bitrate ≠ 0`.) -/
noncomputable def mse (cfg : Config) (d : Draws) (t : ℕ) : ℝ :=
  max 1 (255 ^ 2 / (throughput cfg d t / (cfg.bitrate * 1e6) + 0.1))

/-- Line 60: `psnr = 20 * np.log10(255 / np.sqrt(mse))`. -/
noncomputable def psnr (cfg : Config) (d : Draws) (t : ℕ) : ℝ :=
  20 * Real.logb 10 (255 / Real.sqrt (mse cfg d t))

/-- Lines 63-68: the record appended for frame `t` (bitrate and throughput
divided by 1e6 to report Mbps). -/
noncomputable def record (cfg : Config) (d : Draws) (t : ℕ) : FrameRecord :=
  ⟨t, adaptive_bitrate cfg d t / 1e6, psnr cfg d t, delay cfg d t,
    energy cfg d t, throughput cfg d t / 1e6⟩

set_option linter.unusedVariables false in
/-- The body of the `for t in range(total_frames)` loop (lines 34-68), as a
state transformer: given the queue value entering frame `t` it returns the
queue value leaving the frame together with the appended record. The dead
binding `cwnd` mirrors line 40, which assigns a value no later line reads.
Total `ℝ` division makes this body total; it is faithful to the Python body
only where that body raises no exception, i.e. for `pkt_size > 0` and
`bitrate > 0` (see the module comment). -/
noncomputable def frameStep (cfg : Config) (d : Draws) (t : ℕ) (q : ℝ) :
    ℝ × FrameRecord :=
  let capT := capacity cfg.bw cfg.snr_db * d.mult t
  let adaptive := min (cfg.bitrate * 1e6) (capT * 0.9)
  let cwnd := min 10 (max 1 (pyInt (capT / (cfg.pkt_size * 1024 * 8))))
  let routing_eff : ℝ := 0.95
  let thr := adaptive * routing_eff
  let leff : ℝ := if d.u t > 0.1 then 1 else 0.9
  let thr := thr * leff
  let q := q + max 0 (adaptive - capT)
  let del := q / (capT + 1e-9)
  let en := 0.1 * (cfg.pkt_size * 8 / capT)
  let m := max 1 (255 ^ 2 / (thr / (cfg.bitrate * 1e6) + 0.1))
  let p := 20 * Real.logb 10 (255 / Real.sqrt m)
  (q, ⟨t, adaptive / 1e6, p, del, en, thr / 1e6⟩)

/-- The loop itself: `simFrom cfg d fuel t q` runs `fuel` further frames
starting at frame index `t` with queue value `q`, returning the records in
production order. -/
noncomputable def simFrom (cfg : Config) (d : Draws) : ℕ → ℕ → ℝ → List FrameRecord
  | 0, _, _ => []
  | fuel + 1, t, q =>
    (frameStep cfg d t q).2 :: simFrom cfg d fuel (t + 1) (frameStep cfg d t q).1

/-- Lines 26-72: the whole simulation. The function performs no validation of
its arguments; it runs the loop `total_frames` times starting from
`queue_length = 0` and returns the list of records. (The UI-pacing
`time.sleep(0.01)` at line 70 affects no returned value and is not modelled.) -/
noncomputable def simulate_cross_layer (cfg : Config) (d : Draws) : List FrameRecord :=
  simFrom cfg d cfg.total_frames 0 0

set_option linter.unusedVariables false in
/-- The loop body with the `cwnd` computation (line 40) removed, otherwise
identical to `frameStep`. -/
noncomputable def frameStepNoCwnd (cfg : Config) (d : Draws) (t : ℕ) (q : ℝ) :
    ℝ × FrameRecord :=
  let capT := capacity cfg.bw cfg.snr_db * d.mult t
  let adaptive := min (cfg.bitrate * 1e6) (capT * 0.9)
  let routing_eff : ℝ := 0.95
  let thr := adaptive * routing_eff
  let leff : ℝ := if d.u t > 0.1 then 1 else 0.9
  let thr := thr * leff
  let q := q + max 0 (adaptive - capT)
  let del := q / (capT + 1e-9)
  let en := 0.1 * (cfg.pkt_size * 8 / capT)
  let m := max 1 (255 ^ 2 / (thr / (cfg.bitrate * 1e6) + 0.1))
  let p := 20 * Real.logb 10 (255 / Real.sqrt m)
  (q, ⟨t, adaptive / 1e6, p, del, en, thr / 1e6⟩)

/-- The loop built from the cwnd-free body. -/
noncomputable def simFromNoCwnd (cfg : Config) (d : Draws) :
    ℕ → ℕ → ℝ → List FrameRecord
  | 0, _, _ => []
  | fuel + 1, t, q =>
    (frameStepNoCwnd cfg d t q).2 ::
      simFromNoCwnd cfg d fuel (t + 1) (frameStepNoCwnd cfg d t q).1

/-- The simulation with the `cwnd` computation removed. -/
noncomputable def simulateNoCwnd (cfg : Config) (d : Draws) : List FrameRecord :=
  simFromNoCwnd cfg d cfg.total_frames 0 0

/-- One loop iteration started from the closed-form queue value produces the
closed-form record and the next closed-form queue value. -/
lemma frameStep_eq (cfg : Config) (d : Draws) (t : ℕ) :
    frameStep cfg d t (queue_length cfg d t) =
      (queue_length cfg d (t + 1), record cfg d t) := rfl

/-- Unrolling the loop from frame `t` with the closed-form queue value yields
the mapped closed-form records. -/
lemma simFrom_eq_map (cfg : Config) (d : Draws) :
    ∀ fuel t, simFrom cfg d fuel t (queue_length cfg d t) =
      (List.range fuel).map (fun i => record cfg d (t + i))
  | 0, _ => rfl
  | fuel + 1, t => by
    rw [simFrom, frameStep_eq, simFrom_eq_map cfg d fuel (t + 1),
      List.range_succ_eq_map, List.map_cons, List.map_map]
    refine congrArg₂ _ (by simp) (List.map_congr_left fun i _ => ?_)
    show record cfg d (t + 1 + i) = record cfg d (t + (i + 1))
    rw [Nat.add_assoc, Nat.add_comm 1 i]

/-- The simulation output is the per-frame record map over `0 .. total_frames - 1`. -/
lemma simulate_eq_map (cfg : Config) (d : Draws) :
    simulate_cross_layer cfg d = (List.range cfg.total_frames).map (record cfg d) := by
  have h := simFrom_eq_map cfg d cfg.total_frames 0
  rw [simulate_cross_layer, show (0 : ℝ) = queue_length cfg d 0 from rfl, h]
  exact List.map_congr_left fun i _ => by rw [Nat.zero_add]

/-- The simulation always returns exactly `total_frames` records. -/
lemma length_simulate (cfg : Config) (d : Draws) :
    (simulate_cross_layer cfg d).length = cfg.total_frames := by
  rw [simulate_eq_map, List.length_map, List.length_range]

/-- `10 ** (snr_db / 10)` is positive for every `snr_db`. -/
lemma snr_lin_pos (s : ℝ) : 0 < snr_lin s :=
  Real.rpow_pos_of_pos (by norm_num) _

/-- Positive bandwidth gives positive Shannon capacity. -/
lemma capacity_pos {bw : ℝ} (s : ℝ) (hbw : 0 < bw) : 0 < capacity bw s := by
  have h1 : (1 : ℝ) < 1 + snr_lin s := by linarith [snr_lin_pos s]
  exact mul_pos (mul_pos hbw (by norm_num)) (Real.logb_pos (by norm_num) h1)

/-- With positive bandwidth and in-range draws, the per-frame capacity is
positive. -/
lemma capacity_t_pos {cfg : Config} {d : Draws} (t : ℕ)
    (hbw : 0 < cfg.bw) (hd : d.Valid) : 0 < capacity_t cfg d t := by
  have hm : (0 : ℝ) < d.mult t := lt_of_lt_of_le (by norm_num) (hd.1 t).1
  exact mul_pos (capacity_pos cfg.snr_db hbw) hm

/-- The adaptive bitrate never exceeds 90% of the instantaneous capacity. -/
lemma adaptive_le_point_nine {cfg : Config} {d : Draws} (t : ℕ) :
    adaptive_bitrate cfg d t ≤ capacity_t cfg d t * 0.9 :=
  min_le_right _ _

/-- The adaptive bitrate never exceeds the target bitrate in bps. -/
lemma adaptive_le_target {cfg : Config} {d : Draws} (t : ℕ) :
    adaptive_bitrate cfg d t ≤ cfg.bitrate * 1e6 :=
  min_le_left _ _

/-- When the instantaneous capacity is positive, the adaptive bitrate is
strictly below it. -/
lemma adaptive_lt_cap {cfg : Config} {d : Draws} (t : ℕ)
    (hcap : 0 < capacity_t cfg d t) :
    adaptive_bitrate cfg d t < capacity_t cfg d t :=
  lt_of_le_of_lt (adaptive_le_point_nine t) (by nlinarith)

/-- With a positive target bitrate and nonnegative capacity, the adaptive
bitrate is nonnegative. -/
lemma adaptive_nonneg {cfg : Config} {d : Draws} (t : ℕ)
    (hbit : 0 < cfg.bitrate) (hcap : 0 ≤ capacity_t cfg d t) :
    0 ≤ adaptive_bitrate cfg d t :=
  le_min (by nlinarith) (by nlinarith)

/-- The link efficiency draw takes only the two values 0.9 and 1. -/
lemma link_eff_cases (d : Draws) (t : ℕ) :
    link_eff d t = 0.9 ∨ link_eff d t = 1 := by
  unfold link_eff; split
  · exact Or.inr rfl
  · exact Or.inl rfl

/-- The link efficiency is at most 1. -/
lemma link_eff_le_one (d : Draws) (t : ℕ) : link_eff d t ≤ 1 := by
  rcases link_eff_cases d t with h | h <;> norm_num [h]

/-- The link efficiency is positive. -/
lemma link_eff_pos (d : Draws) (t : ℕ) : 0 < link_eff d t := by
  rcases link_eff_cases d t with h | h <;> norm_num [h]

/-- The transmitted throughput is nonnegative for valid inputs. -/
lemma throughput_nonneg {cfg : Config} {d : Draws} (t : ℕ)
    (hbit : 0 < cfg.bitrate) (hcap : 0 ≤ capacity_t cfg d t) :
    0 ≤ throughput cfg d t := by
  have h1 := adaptive_nonneg t hbit hcap
  have h2 := link_eff_pos d t
  unfold throughput; nlinarith

/-- The transmitted throughput is at most 95% of the adaptive bitrate. -/
lemma throughput_le {cfg : Config} {d : Draws} (t : ℕ)
    (hbit : 0 < cfg.bitrate) (hcap : 0 ≤ capacity_t cfg d t) :
    throughput cfg d t ≤ 0.95 * adaptive_bitrate cfg d t := by
  have h1 := adaptive_nonneg t hbit hcap
  have h2 := link_eff_le_one d t
  unfold throughput; nlinarith

/-- The queue accumulator is nonnegative at every frame. -/
lemma queue_nonneg (cfg : Config) (d : Draws) : ∀ t, 0 ≤ queue_length cfg d t
  | 0 => le_refl 0
  | t + 1 => add_nonneg (queue_nonneg cfg d t) (le_max_left 0 _)

/-- The queue accumulator never decreases from one frame to the next. -/
lemma queue_mono (cfg : Config) (d : Draws) (t : ℕ) :
    queue_length cfg d t ≤ queue_length cfg d (t + 1) :=
  le_add_of_nonneg_right (le_max_left 0 _)

/-- With positive bandwidth and in-range draws, the per-frame queue increment
is exactly zero. -/
lemma increment_zero {cfg : Config} {d : Draws} (t : ℕ)
    (hbw : 0 < cfg.bw) (hd : d.Valid) :
    max 0 (adaptive_bitrate cfg d t - capacity_t cfg d t) = 0 :=
  max_eq_left (sub_nonpos.mpr (le_of_lt (adaptive_lt_cap t (capacity_t_pos t hbw hd))))

/-- With positive bandwidth and in-range draws, the queue stays at zero. -/
lemma queue_zero {cfg : Config} {d : Draws} (hbw : 0 < cfg.bw) (hd : d.Valid) :
    ∀ t, queue_length cfg d t = 0
  | 0 => rfl
  | t + 1 => by
    show queue_length cfg d t + max 0 (adaptive_bitrate cfg d t - capacity_t cfg d t) = 0
    rw [queue_zero hbw hd t, increment_zero t hbw hd, add_zero]

/-- The mse value is clamped to at least 1. -/
lemma one_le_mse (cfg : Config) (d : Draws) (t : ℕ) : 1 ≤ mse cfg d t :=
  le_max_left 1 _

/-- A concrete valid configuration for instantiating the universal theorems:
bandwidth 1 MHz, SNR 0 dB, packet 1 KB, target 1 Mbps, one frame. -/
noncomputable def cfg1 : Config := ⟨1, 0, 1, 1, 1⟩

/-- A concrete draw sequence: channel multiplier 1 and uniform value 1/2 at
every frame. -/
noncomputable def d1 : Draws := ⟨fun _ => 1, fun _ => 1 / 2⟩

/-- Claim C2: with positive bandwidth and in-range draws the per-frame queue
increment `max(0, adaptive_bitrate - capacity_t)` is always exactly zero, the
queue stays at zero for the whole run, and every recorded delay is exactly
zero. -/
theorem C2_zero_queue_zero_delay (cfg : Config) (d : Draws)
    (hbw : 0 < cfg.bw) (hd : d.Valid) :
    (∀ t, max 0 (adaptive_bitrate cfg d t - capacity_t cfg d t) = 0) ∧
      (∀ t, queue_length cfg d t = 0) ∧
      ∀ r ∈ simulate_cross_layer cfg d, r.delay = 0 := by
  refine ⟨fun t => increment_zero t hbw hd, queue_zero hbw hd, fun r hr => ?_⟩
  rw [simulate_eq_map] at hr
  obtain ⟨t, -, rfl⟩ := List.mem_map.mp hr
  show delay cfg d t = 0
  rw [delay, queue_zero hbw hd, zero_div]

/-- Witness for C2 at the concrete configuration `cfg1` and draws `d1`. -/
theorem C2_witness :
    (∀ t, max 0 (adaptive_bitrate cfg1 d1 t - capacity_t cfg1 d1 t) = 0) ∧
      (∀ t, queue_length cfg1 d1 t = 0) ∧
      ∀ r ∈ simulate_cross_layer cfg1 d1, r.delay = 0 :=
  C2_zero_queue_zero_delay cfg1 d1 (by norm_num [cfg1])
    ⟨fun t => by norm_num [d1], fun t => by norm_num [d1]⟩

set_option linter.unusedVariables false in
/-- Claim C3: for every valid configuration the result has exactly
`total_frames` records and the i-th record's time index equals `i` for every
`i` (the time series is `0, 1, ..., total_frames - 1` in order). -/
theorem C3_length_and_time_index (cfg : Config) (d : Draws) (hcfg : cfg.Valid) :
    (simulate_cross_layer cfg d).length = cfg.total_frames ∧
      ∀ i (h : i < (simulate_cross_layer cfg d).length),
        ((simulate_cross_layer cfg d).get ⟨i, h⟩).time = i := by
  refine ⟨length_simulate cfg d, fun i h => ?_⟩
  simp [simulate_eq_map, record]

/-- Witness for C3 at the concrete configuration `cfg1` and draws `d1`. -/
theorem C3_witness :
    (simulate_cross_layer cfg1 d1).length = cfg1.total_frames ∧
      ∀ i (h : i < (simulate_cross_layer cfg1 d1).length),
        ((simulate_cross_layer cfg1 d1).get ⟨i, h⟩).time = i :=
  C3_length_and_time_index cfg1 d1
    ⟨by norm_num [cfg1], by norm_num [cfg1], by norm_num [cfg1], by norm_num [cfg1]⟩

/-- Claim C6: the queue starts at 0, is updated exactly once per frame by
adding the nonnegative increment `max(0, adaptive_bitrate - capacity_t)`, hence
is non-decreasing and never drops below 0, and each frame's recorded delay
equals the post-update queue divided by `capacity_t + 1e-9`. -/
theorem C6_queue_and_delay (cfg : Config) (d : Draws) :
    queue_length cfg d 0 = 0 ∧
      (∀ t, queue_length cfg d (t + 1) =
        queue_length cfg d t + max 0 (adaptive_bitrate cfg d t - capacity_t cfg d t)) ∧
      (∀ t, 0 ≤ max 0 (adaptive_bitrate cfg d t - capacity_t cfg d t)) ∧
      (∀ t, queue_length cfg d t ≤ queue_length cfg d (t + 1)) ∧
      (∀ t, 0 ≤ queue_length cfg d t) ∧
      ∀ t, (record cfg d t).delay =
        queue_length cfg d (t + 1) / (capacity_t cfg d t + 1e-9) :=
  ⟨rfl, fun _ => rfl, fun _ => le_max_left 0 _, queue_mono cfg d,
    queue_nonneg cfg d, fun _ => rfl⟩

/-- The cwnd-free loop computes the same list as the original loop. -/
lemma simFromNoCwnd_eq (cfg : Config) (d : Draws) :
    ∀ fuel t q, simFromNoCwnd cfg d fuel t q = simFrom cfg d fuel t q
  | 0, _, _ => rfl
  | fuel + 1, t, q => by
    rw [simFromNoCwnd, simFrom,
      show frameStepNoCwnd cfg d t q = frameStep cfg d t q from rfl,
      simFromNoCwnd_eq cfg d fuel (t + 1) _]

/-- Claim C10: the congestion-window computation is dead code — the simulation
with the cwnd line removed produces exactly the same output series as the
original, for every configuration and every draw sequence. -/
theorem C10_cwnd_unused (cfg : Config) (d : Draws) :
    simulateNoCwnd cfg d = simulate_cross_layer cfg d :=
  simFromNoCwnd_eq cfg d cfg.total_frames 0 0

/-- Claim C4: each frame's recorded bitrate is
`min(target_bitrate_bps, capacity_t * 0.9)` reported in Mbps; the recorded
throughput is that adaptive bitrate times the fixed 0.95 routing efficiency
times the per-frame link-efficiency draw, which takes only the values 0.9 and
1; hence the throughput is at most `0.95 * adaptive_bitrate`, itself at most
`0.95 * target_bitrate_bps`. -/
theorem C4_bitrate_and_throughput (cfg : Config) (d : Draws) (t : ℕ)
    (hcfg : cfg.Valid) (hd : d.Valid) :
    (record cfg d t).bitrate =
        min (cfg.bitrate * 1e6) (capacity_t cfg d t * 0.9) / 1e6 ∧
      (record cfg d t).throughput =
        adaptive_bitrate cfg d t * 0.95 * link_eff d t / 1e6 ∧
      link_eff d t = (if d.u t > 0.1 then 1 else 0.9) ∧
      (link_eff d t = 0.9 ∨ link_eff d t = 1) ∧
      throughput cfg d t ≤ 0.95 * adaptive_bitrate cfg d t ∧
      0.95 * adaptive_bitrate cfg d t ≤ 0.95 * (cfg.bitrate * 1e6) := by
  obtain ⟨hbw, hpkt, hbit, hfc⟩ := hcfg
  have hcap := le_of_lt (capacity_t_pos t hbw hd)
  refine ⟨rfl, rfl, rfl, link_eff_cases d t, throughput_le t hbit hcap, ?_⟩
  have := @adaptive_le_target cfg d t
  linarith

/-- Witness for C4 at the concrete configuration `cfg1`, draws `d1`, frame 0. -/
theorem C4_witness :
    (record cfg1 d1 0).bitrate =
        min (cfg1.bitrate * 1e6) (capacity_t cfg1 d1 0 * 0.9) / 1e6 ∧
      (record cfg1 d1 0).throughput =
        adaptive_bitrate cfg1 d1 0 * 0.95 * link_eff d1 0 / 1e6 ∧
      link_eff d1 0 = (if d1.u 0 > 0.1 then 1 else 0.9) ∧
      (link_eff d1 0 = 0.9 ∨ link_eff d1 0 = 1) ∧
      throughput cfg1 d1 0 ≤ 0.95 * adaptive_bitrate cfg1 d1 0 ∧
      0.95 * adaptive_bitrate cfg1 d1 0 ≤ 0.95 * (cfg1.bitrate * 1e6) :=
  C4_bitrate_and_throughput cfg1 d1 0
    ⟨by norm_num [cfg1], by norm_num [cfg1], by norm_num [cfg1], by norm_num [cfg1]⟩
    ⟨fun t => by norm_num [d1], fun t => by norm_num [d1]⟩

/-- Claim C5: under the §4.1 preconditions and in-range draws, every per-frame
quantity is well defined and in range: the capacity and every divisor and every
argument of sqrt and log10 is strictly positive, and the recorded delay,
energy, bitrate and throughput are all nonnegative. -/
theorem C5_all_values_safe (cfg : Config) (d : Draws) (t : ℕ)
    (hcfg : cfg.Valid) (hd : d.Valid) :
    0 < capacity_t cfg d t ∧
      0 < capacity_t cfg d t + 1e-9 ∧
      0 < cfg.bitrate * 1e6 ∧
      0 < throughput cfg d t / (cfg.bitrate * 1e6) + 0.1 ∧
      0 < mse cfg d t ∧
      0 < Real.sqrt (mse cfg d t) ∧
      0 < 255 / Real.sqrt (mse cfg d t) ∧
      0 ≤ (record cfg d t).delay ∧
      0 < (record cfg d t).energy ∧
      0 ≤ (record cfg d t).bitrate ∧
      0 ≤ (record cfg d t).throughput := by
  obtain ⟨hbw, hpkt, hbit, hfc⟩ := hcfg
  have hcap := capacity_t_pos t hbw hd
  have hthr := throughput_nonneg t hbit (le_of_lt hcap)
  have hbit6 : 0 < cfg.bitrate * 1e6 := by nlinarith
  have hratio : 0 < throughput cfg d t / (cfg.bitrate * 1e6) + 0.1 := by
    have := div_nonneg hthr (le_of_lt hbit6)
    linarith
  have hmse : (0 : ℝ) < mse cfg d t := lt_of_lt_of_le one_pos (one_le_mse cfg d t)
  have hsqrt : 0 < Real.sqrt (mse cfg d t) := Real.sqrt_pos.mpr hmse
  refine ⟨hcap, by linarith, hbit6, hratio, hmse, hsqrt,
    div_pos (by norm_num) hsqrt, ?_, ?_, ?_, ?_⟩
  · show 0 ≤ delay cfg d t
    exact div_nonneg (queue_nonneg cfg d (t + 1)) (by linarith)
  · show 0 < energy cfg d t
    have h8 : 0 < cfg.pkt_size * 8 / capacity_t cfg d t :=
      div_pos (by nlinarith) hcap
    unfold energy
    nlinarith
  · show 0 ≤ adaptive_bitrate cfg d t / 1e6
    exact div_nonneg (adaptive_nonneg t hbit (le_of_lt hcap)) (by norm_num)
  · show 0 ≤ throughput cfg d t / 1e6
    exact div_nonneg hthr (by norm_num)

/-- Witness for C5 at the concrete configuration `cfg1`, draws `d1`, frame 0. -/
theorem C5_witness :
    0 < capacity_t cfg1 d1 0 ∧
      0 < capacity_t cfg1 d1 0 + 1e-9 ∧
      0 < cfg1.bitrate * 1e6 ∧
      0 < throughput cfg1 d1 0 / (cfg1.bitrate * 1e6) + 0.1 ∧
      0 < mse cfg1 d1 0 ∧
      0 < Real.sqrt (mse cfg1 d1 0) ∧
      0 < 255 / Real.sqrt (mse cfg1 d1 0) ∧
      0 ≤ (record cfg1 d1 0).delay ∧
      0 < (record cfg1 d1 0).energy ∧
      0 ≤ (record cfg1 d1 0).bitrate ∧
      0 ≤ (record cfg1 d1 0).throughput :=
  C5_all_values_safe cfg1 d1 0
    ⟨by norm_num [cfg1], by norm_num [cfg1], by norm_num [cfg1], by norm_num [cfg1]⟩
    ⟨fun t => by norm_num [d1], fun t => by norm_num [d1]⟩

/-- Claim C7: because mse is clamped to at least 1, every recorded PSNR value
is at most `20 * log10 255` (≈ 48.13 dB) — for every configuration, draw
sequence and frame. -/
theorem C7_psnr_upper_bound (cfg : Config) (d : Draws) (t : ℕ) :
    1 ≤ mse cfg d t ∧ (record cfg d t).psnr ≤ 20 * Real.logb 10 255 := by
  refine ⟨one_le_mse cfg d t, ?_⟩
  show psnr cfg d t ≤ 20 * Real.logb 10 255
  have h1 : 1 ≤ Real.sqrt (mse cfg d t) := Real.one_le_sqrt.mpr (one_le_mse cfg d t)
  have h2 : (0 : ℝ) < 255 / Real.sqrt (mse cfg d t) :=
    div_pos (by norm_num) (lt_of_lt_of_le one_pos h1)
  have h3 : 255 / Real.sqrt (mse cfg d t) ≤ 255 := div_le_self (by norm_num) h1
  have h4 := Real.logb_le_logb_of_le (show (1 : ℝ) < 10 by norm_num) h2 h3
  unfold psnr
  linarith

/-- Claim C8: for valid configurations the throughput-to-target ratio is at
most 0.95, therefore the unclamped mse quotient is at least `255^2 / 1.05 > 1`,
the max-with-1 clamp is never active (mse equals the unclamped quotient
exactly), and the recorded PSNR never exceeds `10 * log10 1.05` (≈ 0.21 dB). -/
theorem C8_clamp_inactive_psnr_small (cfg : Config) (d : Draws) (t : ℕ)
    (hcfg : cfg.Valid) (hd : d.Valid) :
    throughput cfg d t / (cfg.bitrate * 1e6) ≤ 0.95 ∧
      mse cfg d t = 255 ^ 2 / (throughput cfg d t / (cfg.bitrate * 1e6) + 0.1) ∧
      (record cfg d t).psnr ≤ 10 * Real.logb 10 1.05 := by
  obtain ⟨hbw, hpkt, hbit, hfc⟩ := hcfg
  have hcap := capacity_t_pos t hbw hd
  have hthr0 := throughput_nonneg t hbit (le_of_lt hcap)
  have hbit6 : 0 < cfg.bitrate * 1e6 := by nlinarith
  have hthr : throughput cfg d t ≤ 0.95 * (cfg.bitrate * 1e6) := by
    have h1 := throughput_le t hbit (le_of_lt hcap)
    have h2 := @adaptive_le_target cfg d t
    have h3 := adaptive_nonneg t hbit (le_of_lt hcap)
    nlinarith
  have hratio : throughput cfg d t / (cfg.bitrate * 1e6) ≤ 0.95 := by
    rw [div_le_iff₀ hbit6]
    linarith
  have hratio0 : 0 ≤ throughput cfg d t / (cfg.bitrate * 1e6) :=
    div_nonneg hthr0 (le_of_lt hbit6)
  set R := throughput cfg d t / (cfg.bitrate * 1e6) with hR
  have hden : (0 : ℝ) < R + 0.1 := by linarith
  have hU : (255 : ℝ) ^ 2 / 1.05 ≤ 255 ^ 2 / (R + 0.1) :=
    (div_le_div_iff_of_pos_left (by norm_num) (by norm_num) hden).mpr (by linarith)
  have hU1 : (1 : ℝ) ≤ 255 ^ 2 / (R + 0.1) := le_trans (by norm_num) hU
  have hmse_eq : mse cfg d t = 255 ^ 2 / (R + 0.1) := max_eq_right hU1
  have hmse_ge : (255 : ℝ) ^ 2 / 1.05 ≤ mse cfg d t := by
    rw [hmse_eq]; exact hU
  have hmse1 : (0 : ℝ) < mse cfg d t := lt_of_lt_of_le one_pos (one_le_mse cfg d t)
  have hsqrtpos : 0 < Real.sqrt (mse cfg d t) := Real.sqrt_pos.mpr hmse1
  have hchain : 255 / Real.sqrt (mse cfg d t) ≤ Real.sqrt 1.05 := by
    rw [div_le_iff₀ hsqrtpos]
    have h255 : (255 : ℝ) ≤ Real.sqrt (1.05 * mse cfg d t) := by
      rw [Real.le_sqrt (by norm_num) (by nlinarith)]
      nlinarith
    calc (255 : ℝ) ≤ Real.sqrt (1.05 * mse cfg d t) := h255
      _ = Real.sqrt 1.05 * Real.sqrt (mse cfg d t) := Real.sqrt_mul (by norm_num) _
  have hlog := Real.logb_le_logb_of_le (show (1 : ℝ) < 10 by norm_num)
    (div_pos (by norm_num) hsqrtpos) hchain
  have hsq : Real.logb 10 (Real.sqrt 1.05) = Real.logb 10 1.05 / 2 := by
    simp only [Real.logb, Real.log_sqrt (show (0 : ℝ) ≤ 1.05 by norm_num)]
    ring
  refine ⟨hratio, hmse_eq, ?_⟩
  show psnr cfg d t ≤ 10 * Real.logb 10 1.05
  rw [hsq] at hlog
  unfold psnr
  linarith

/-- Witness for C8 at the concrete configuration `cfg1`, draws `d1`, frame 0. -/
theorem C8_witness :
    throughput cfg1 d1 0 / (cfg1.bitrate * 1e6) ≤ 0.95 ∧
      mse cfg1 d1 0 = 255 ^ 2 / (throughput cfg1 d1 0 / (cfg1.bitrate * 1e6) + 0.1) ∧
      (record cfg1 d1 0).psnr ≤ 10 * Real.logb 10 1.05 :=
  C8_clamp_inactive_psnr_small cfg1 d1 0
    ⟨by norm_num [cfg1], by norm_num [cfg1], by norm_num [cfg1], by norm_num [cfg1]⟩
    ⟨fun t => by norm_num [d1], fun t => by norm_num [d1]⟩

/-- The instantaneous capacity depends on the draws only through the frame's
channel multiplier. -/
lemma capacity_t_congr {cfg : Config} {da db : Draws} {t : ℕ}
    (h : da.mult t = db.mult t) : capacity_t cfg da t = capacity_t cfg db t := by
  unfold capacity_t; rw [h]

/-- The adaptive bitrate depends on the draws only through the frame's channel
multiplier. -/
lemma adaptive_congr {cfg : Config} {da db : Draws} {t : ℕ}
    (h : da.mult t = db.mult t) :
    adaptive_bitrate cfg da t = adaptive_bitrate cfg db t := by
  unfold adaptive_bitrate; rw [capacity_t_congr h]

/-- The queue value after `t` frames depends only on the first `t` channel
multipliers. -/
lemma queue_congr {cfg : Config} {da db : Draws} :
    ∀ t, (∀ s, s < t → da.mult s = db.mult s) →
      queue_length cfg da t = queue_length cfg db t
  | 0, _ => rfl
  | t + 1, h => by
    show queue_length cfg da t + _ = queue_length cfg db t + _
    rw [queue_congr t (fun s hs => h s (Nat.lt_succ_of_lt hs)),
      adaptive_congr (h t (Nat.lt_succ_self t)),
      capacity_t_congr (h t (Nat.lt_succ_self t))]

/-- The frame-`t` record depends only on the channel multipliers up to `t` and
the frame's own uniform draw. -/
lemma record_congr {cfg : Config} {da db : Draws} {t : ℕ}
    (hm : ∀ s, s ≤ t → da.mult s = db.mult s) (hu : da.u t = db.u t) :
    record cfg da t = record cfg db t := by
  have hq : queue_length cfg da (t + 1) = queue_length cfg db (t + 1) :=
    queue_congr (t + 1) fun s hs => hm s (Nat.lt_succ_iff.mp hs)
  have hc : capacity_t cfg da t = capacity_t cfg db t :=
    capacity_t_congr (hm t le_rfl)
  unfold record psnr mse throughput link_eff delay energy
  rw [adaptive_congr (hm t le_rfl), hc, hq, hu]

/-- Claim C9: the simulation is a deterministic function of the configuration
and the random draw sequence — two runs with the same configuration whose draw
sequences agree on the frames actually simulated produce identical output
series in every field of every record. -/
theorem C9_deterministic (cfg : Config) (da db : Draws)
    (h : ∀ t, t < cfg.total_frames → da.mult t = db.mult t ∧ da.u t = db.u t) :
    simulate_cross_layer cfg da = simulate_cross_layer cfg db := by
  rw [simulate_eq_map, simulate_eq_map]
  refine List.map_congr_left fun i hi => ?_
  have hi' : i < cfg.total_frames := List.mem_range.mp hi
  exact record_congr (fun s hs => (h s (lt_of_le_of_lt hs hi')).1) (h i hi').2

/-- A second draw sequence that agrees with `d1` on frame 0 (the only simulated
frame of `cfg1`) but differs everywhere else. -/
noncomputable def d2 : Draws :=
  ⟨fun t => if t = 0 then 1 else 2, fun t => if t = 0 then 1 / 2 else 0⟩

/-- Witness for C9: two differently-built draw sequences agreeing on the
simulated range give identical runs for `cfg1`. -/
theorem C9_witness : simulate_cross_layer cfg1 d1 = simulate_cross_layer cfg1 d2 := by
  refine C9_deterministic cfg1 d1 d2 fun t ht => ?_
  rw [show cfg1.total_frames = 1 from rfl] at ht
  rw [Nat.lt_one_iff.mp ht]
  constructor <;> norm_num [d1, d2]

end CrossLayer
